import Mathlib

/-!
Verification of the query-understanding and retrieval-orchestration pipeline
of the financial Q&A system.

Python strings are modelled as `List Char` (`Str`); Python floats as `ℚ`;
Python dicts keyed by sub-query (insertion ordered) as association lists;
Python sets of seen source ids as lists with membership; fallible Python code
(exceptions) as `Except Str`.  Calls to the generative-model API and to the
vector index are external collaborators: they are passed in as explicit
function/value parameters, so every theorem quantifies over their behaviour.
-/

deriving instance DecidableEq for Except

namespace FinQA

/-- Python strings, modelled as lists of characters. -/
abbrev Str := List Char

/-- Coerce a Lean string literal to the `Str` model. -/
def str (s : String) : Str := s.toList

/-- Python `str.lower()` (ASCII case folding, as used on this repo's inputs). -/
def pyLower (s : Str) : Str := s.map Char.toLower

/-- Characters stripped/split by Python `str.strip()` / `str.split()`. -/
def isPySpace (c : Char) : Bool := c.isWhitespace

/-- Python `str.strip()`: drop leading and trailing whitespace. -/
def pyStrip (s : Str) : Str :=
  ((s.dropWhile isPySpace).reverse.dropWhile isPySpace).reverse

/-- Worker for Python `str.split()` (split on whitespace runs, no empties). -/
def splitWsGo (cur : Str) : Str → List Str
  | [] => if cur.isEmpty then [] else [cur.reverse]
  | c :: cs =>
    if isPySpace c then
      if cur.isEmpty then splitWsGo [] cs else cur.reverse :: splitWsGo [] cs
    else splitWsGo (c :: cur) cs

/-- Python `str.split()` with no separator argument. -/
def pySplitWs (s : Str) : List Str := splitWsGo [] s

/-- Python `" ".join(ws)`. -/
def joinSpace : List Str → Str
  | [] => []
  | [w] => w
  | w :: ws => w ++ ' ' :: joinSpace ws

/-- `leadsWith n h` is true when `n` starts the list `h`. -/
def leadsWith : Str → Str → Bool
  | [], _ => true
  | _ :: _, [] => false
  | a :: as, b :: bs => a == b && leadsWith as bs

/-- Python substring test `needle in hay`. -/
def containsSub : Str → Str → Bool
  | [], n => n.isEmpty
  | h :: t, n => leadsWith n (h :: t) || containsSub t n

/-- Decimal rendering of a natural number, as Python `f"{year}"`. -/
def natStr (n : Nat) : Str := (Nat.repr n).toList

/-- Python round-to-3-decimals on an exact rational, `round(x, 3)`. -/
def round3 (x : ℚ) : ℚ := (round (x * 1000) : ℤ) / 1000

/-- Fuelled worker for Python `str.replace(old, new)` (left-to-right,
non-overlapping); fuel is the remaining string length, which bounds the
number of steps. -/
def pyReplaceFuel (old new : Str) : Nat → Str → Str
  | 0, s => s
  | _ + 1, [] => []
  | f + 1, c :: cs =>
    if leadsWith old (c :: cs) && !old.isEmpty then
      new ++ pyReplaceFuel old new f (cs.drop (old.length - 1))
    else c :: pyReplaceFuel old new f cs

/-- Python `s.replace(old, new)`. -/
def pyReplace (old new s : Str) : Str := pyReplaceFuel old new s.length s

/-- Python `n_results // k` as it can fail: `ZeroDivisionError` on `k = 0`. -/
def pyDiv (a b : Nat) : Except Str Nat :=
  if b = 0 then .error (str "ZeroDivisionError") else .ok (a / b)

/-! ## Data model (`src/agents`, `src/rag`) -/

/-- The closed query-type enumeration from `query_classifier.py`. -/
inductive QueryType where
  | SIMPLE_DIRECT
  | COMPARATIVE_YOY
  | CROSS_COMPANY
  | COMPLEX_MULTI_ASPECT
  | SEGMENT_ANALYSIS
deriving DecidableEq, Repr

/-- The `classification_info` dict built by `QueryClassifier.classify_query`;
all five keys are always present in a well-formed classification result. -/
structure ClassificationInfo where
  qtype : QueryType
  companies : List Str
  years : List Nat
  metrics : List Str
  complexity_score : Nat
deriving DecidableEq, Repr

/-- One formatted retrieval result from `FinancialVectorStore.search`
(`section` is a Lean keyword, hence the field name `sectionName`). -/
structure Evidence where
  text : Str
  company : Str
  year : Nat
  sectionName : Str
  distance : ℚ
deriving DecidableEq, Repr

/-- One entry of the `sources` list built by
`ResultSynthesizer._extract_sources`. -/
structure Source where
  company : Str
  year : Nat
  excerpt : Str
  sectionName : Str
  relevance_score : ℚ
deriving DecidableEq, Repr

/-! ## Decomposer (`QueryDecomposer`, `src/agents/query_classifier.py`) -/

/-- Format string `f"{company} {metric} {year}"` used by all decomposers. -/
def fmtSubQuery (company metric : Str) (year : Nat) : Str :=
  company ++ ' ' :: metric ++ ' ' :: natStr year

/-- `QueryDecomposer._decompose_yoy_query`: per company x metric x year
sub-queries when at least two years were extracted, with the
`sub_queries or [query]` fallback. -/
def decomposeYoy (query : Str) (info : ClassificationInfo) : List Str :=
  let companies :=
    if info.companies.isEmpty then [str "GOOGL", str "MSFT", str "NVDA"]
    else info.companies
  let subQueries :=
    if 2 ≤ info.years.length then
      companies.flatMap fun company =>
        (if info.metrics.isEmpty then [str "revenue"] else info.metrics).flatMap
          fun metric => info.years.map fun year => fmtSubQuery company metric year
    else []
  if subQueries.isEmpty then [query] else subQueries

/-- `QueryDecomposer._decompose_cross_company_query`: one sub-query per
company x metric at the first extracted year (default 2023).  The
`info.get("companies", [...])` default only fires when the key is missing,
which never happens for a well-formed classification dict, so the extracted
`companies` list is used as is; note there is no `or [query]` fallback. -/
def decomposeCrossCompany (info : ClassificationInfo) : List Str :=
  let targetYear := match info.years with | [] => 2023 | y :: _ => y
  info.companies.flatMap fun company =>
    (if info.metrics.isEmpty then [str "operating margin"] else info.metrics).map
      fun metric => fmtSubQuery company metric targetYear

/-- Strip a leading `\d+\.\s*` enumeration marker (`re.sub(r'^\d+\.\s*', ...)`). -/
def stripEnumNum (l : Str) : Str :=
  let ds := l.takeWhile Char.isDigit
  let rest := l.dropWhile Char.isDigit
  if ds.isEmpty then l
  else match rest with
    | '.' :: r => r.dropWhile isPySpace
    | _ => l

/-- Strip a leading `-\s*` bullet marker (`re.sub(r'^-\s*', ...)`). -/
def stripDash (l : Str) : Str :=
  match l with
  | '-' :: r => r.dropWhile isPySpace
  | _ => l

/-- Line parser of `QueryDecomposer._decompose_complex_query`: split the model
response on newlines, keep stripped non-empty lines not starting with
`Sub-queries`, and remove enumeration markers. -/
def parseDecompositionLines (text : Str) : List Str :=
  ((text.splitOn '\n').map pyStrip).foldr
    (fun line acc =>
      if !line.isEmpty && !leadsWith (str "Sub-queries") line then
        pyStrip (stripDash (stripEnumNum line)) :: acc
      else acc) []

/-- `QueryDecomposer._decompose_complex_query`, with the generative-model call
abstracted as `llm` (`.error` models an exception in the call, `.ok t` the
stripped response text path). -/
def decomposeComplex (llm : Except Str Str) (query : Str) : List Str :=
  match llm with
  | .error _ => [query]
  | .ok text =>
    let subQueries := parseDecompositionLines (pyStrip text)
    if subQueries.isEmpty then [query] else subQueries

/-- `QueryDecomposer._decompose_segment_query`. -/
def decomposeSegment (query : Str) (info : ClassificationInfo) : List Str :=
  let companies :=
    if info.companies.isEmpty then
      if containsSub (pyLower query) (str "google") then [str "GOOGL"]
      else if containsSub (pyLower query) (str "microsoft") then [str "MSFT"]
      else if containsSub (pyLower query) (str "nvidia") then [str "NVDA"]
      else [str "GOOGL", str "MSFT", str "NVDA"]
    else info.companies
  let targetYear := match info.years with | [] => 2023 | y :: _ => y
  companies.flatMap fun company =>
    [company ++ str " total revenue " ++ natStr targetYear,
     company ++ str " segment revenue breakdown " ++ natStr targetYear]

/-- `QueryDecomposer.decompose_query`: dispatch on the query type.  The
generative model used by the complex branch is passed in as `llm`. -/
def decomposeQuery (llm : Except Str Str) (query : Str) (queryType : QueryType)
    (info : ClassificationInfo) : List Str :=
  match queryType with
  | .SIMPLE_DIRECT => [query]
  | .COMPARATIVE_YOY => decomposeYoy query info
  | .CROSS_COMPANY => decomposeCrossCompany info
  | .COMPLEX_MULTI_ASPECT => decomposeComplex llm query
  | .SEGMENT_ANALYSIS => decomposeSegment query info

/-! ## Retrieval engine (`RetrievalEngine`, `src/rag/vector_store.py`)

The vector index is an external collaborator: a filtered search
`search_by_company_year(query, company=…, n_results=…)` is modelled as a
function parameter `store : Str → Str → Nat → List Evidence` (query, filter
value, requested count), and the unfiltered `search(query, n)` as
`store0 : Str → Nat → List Evidence`. -/

/-- Ascending-by-distance comparison used by every `.sort(key=…)` call. -/
def distLe (a b : Evidence) : Prop := a.distance ≤ b.distance

instance : DecidableRel distLe := fun a b =>
  inferInstanceAs (Decidable (a.distance ≤ b.distance))

instance : IsTotal Evidence distLe := ⟨fun a b => le_total a.distance b.distance⟩

instance : IsTrans Evidence distLe := ⟨fun _ _ _ h h' => le_trans h h'⟩

/-- Python `list.sort(key=lambda x: x["distance"])` (tie order is not relied
on by any claim). -/
def sortByDistance (l : List Evidence) : List Evidence := l.insertionSort distLe

/-- The six financial keywords of `RetrievalEngine._hybrid_search`. -/
def hybridKeywords : List Str :=
  [str "revenue", str "income", str "profit", str "margin", str "earnings",
   str "sales"]

/-- Number of hybrid keywords occurring in both the query and the text
(Python `sum(1 for keyword in financial_keywords if keyword in query_lower
and keyword in text_lower)`). -/
def keywordMatches (query text : Str) : Nat :=
  hybridKeywords.countP fun kw =>
    containsSub (pyLower query) kw && containsSub (pyLower text) kw

/-- The distance adjustment of `_hybrid_search`: reduce by 10% per keyword
match, applied only when there is at least one match. -/
def adjustDistance (d : ℚ) (k : Nat) : ℚ :=
  if 0 < k then d * (1 - (1 / 10) * k) else d

/-- `RetrievalEngine._hybrid_search` over an abstract unfiltered search. -/
def hybridSearch (store0 : Str → Nat → List Evidence) (query : Str)
    (nResults : Nat) : List Evidence :=
  sortByDistance ((store0 query nResults).map fun r =>
    { r with distance := adjustDistance r.distance (keywordMatches query r.text) })

/-- Per-company loop of `_company_focused_search` (also, with years rendered
as filter strings, of `_temporal_search`).  The quota expression
`n_results // len(companies) + 1` is an argument of the call inside the loop
body, so it is evaluated (and can only raise `ZeroDivisionError`) once per
iteration; `allFilters` is the full list whose length divides. -/
def focusedLoop (store : Str → Str → Nat → List Evidence) (query : Str)
    (allFilters : List Str) (nResults : Nat) :
    List Str → List Evidence → Except Str (List Evidence)
  | [], acc => .ok acc
  | f :: fs, acc =>
    match pyDiv nResults allFilters.length with
    | .error e => .error e
    | .ok q =>
      focusedLoop store query allFilters nResults fs
        (acc ++ store query f (q + 1))

/-- `RetrievalEngine._company_focused_search`: one filtered query per company,
concatenate, sort ascending by distance, truncate to `n_results`. -/
def companyFocusedSearch (store : Str → Str → Nat → List Evidence) (query : Str)
    (companies : List Str) (nResults : Nat) : Except Str (List Evidence) :=
  (focusedLoop store query companies nResults companies []).map
    fun all => (sortByDistance all).take nResults

/-- `RetrievalEngine._temporal_search`: identical to the company-focused
strategy but filtered by year (years are rendered to their filter strings,
as `search_by_company_year` does with `str(year)`). -/
def temporalSearch (store : Str → Str → Nat → List Evidence) (query : Str)
    (years : List Nat) (nResults : Nat) : Except Str (List Evidence) :=
  (focusedLoop store query (years.map natStr) nResults (years.map natStr) []).map
    fun all => (sortByDistance all).take nResults

/-- The confidence labels appearing in answer dicts. -/
inductive Confidence where
  | high
  | medium
  | low
deriving DecidableEq, Repr

/-- The answer dict shape returned by the orchestrator and by
`process_single_query`. -/
structure Answer where
  query : Str
  answer : Str
  reasoning : Str
  sub_queries : List Str
  sources : List Source
  confidence : Confidence
deriving DecidableEq, Repr

/-! ## Synthesizer sources (`ResultSynthesizer`, `src/agents/synthesizer.py`) -/

/-- Word characters of `re.findall(r'\b\w+\b', s)`: letters, digits, `_`. -/
def isWordChar (c : Char) : Bool := c.isAlphanum || c == '_'

/-- Worker collecting maximal word-character runs. -/
def wordRunsGo (cur : Str) : Str → List Str
  | [] => if cur.isEmpty then [] else [cur.reverse]
  | c :: cs =>
    if isWordChar c then wordRunsGo (c :: cur) cs
    else if cur.isEmpty then wordRunsGo [] cs else cur.reverse :: wordRunsGo [] cs

/-- Python `re.findall(r'\b\w+\b', s)`. -/
def wordRuns (s : Str) : List Str := wordRunsGo [] s

/-- Split on single separator characters, keeping empty pieces. -/
def splitChar (p : Char → Bool) : Str → List Str
  | [] => [[]]
  | c :: cs =>
    if p c then [] :: splitChar p cs
    else match splitChar p cs with
      | w :: ws => (c :: w) :: ws
      | [] => [[c]]

/-- Drop empty pieces except a final one (turns a single-character split into
the run-collapsing split of `re.split(r'[.!?]+', text)`). -/
def collapseMid : List Str → List Str
  | [] => []
  | [x] => [x]
  | x :: xs => if x.isEmpty then collapseMid xs else x :: collapseMid xs

/-- Python `re.split(r'[.!?]+', text)`. -/
def splitSentences (text : Str) : List Str :=
  match splitChar (fun c => c == '.' || c == '!' || c == '?') text with
  | [] => []
  | x :: xs => x :: collapseMid xs

/-- Truncate to 200 characters with an ellipsis marker, as the excerpt code. -/
def truncate200 (s : Str) : Str :=
  if 200 < s.length then s.take 200 ++ str "..." else s

/-- Best-sentence scan of `_extract_meaningful_excerpt`: keep the first
sentence longer than 50 characters strictly improving the query-term score. -/
def bestSentenceGo (queryTerms : List Str) (best : Str) (maxScore : Nat) :
    List Str → Str
  | [] => best
  | sentence :: rest =>
    if 50 < sentence.length then
      let score := queryTerms.countP fun term =>
        containsSub (pyLower sentence) term
      if maxScore < score then bestSentenceGo queryTerms (pyStrip sentence) score rest
      else bestSentenceGo queryTerms best maxScore rest
    else bestSentenceGo queryTerms best maxScore rest

/-- `ResultSynthesizer._extract_meaningful_excerpt`. -/
def extractMeaningfulExcerpt (text query : Str) : Str :=
  let queryTerms := wordRuns (pyLower query)
  let best := bestSentenceGo queryTerms [] 0 (splitSentences text)
  if !best.isEmpty then truncate200 best else truncate200 text

/-- The `f"{company}_{year}_{section}"` identifier used for deduplication. -/
def srcId (company : Str) (year : Nat) (sectionName : Str) : Str :=
  company ++ '_' :: natStr year ++ '_' :: sectionName

/-- Identifier of an evidence item, as `_extract_sources` computes it. -/
def evidenceId (e : Evidence) : Str := srcId e.company e.year e.sectionName

/-- Identifier of an already-built source entry. -/
def sourceId (s : Source) : Str := srcId s.company s.year s.sectionName

/-- The source dict built for one kept evidence item
(`relevance_score = round(1.0 - distance, 3)`). -/
def mkSource (subQuery : Str) (e : Evidence) : Source :=
  { company := e.company
    year := e.year
    excerpt := extractMeaningfulExcerpt e.text subQuery
    sectionName := e.sectionName
    relevance_score := round3 (1 - e.distance) }

/-- Inner loop of `_extract_sources` over the (already truncated to two)
results of one sub-query, threading the seen-id set and the output list. -/
def extractSourcesInner (subQuery : Str) :
    List Evidence → List Str → List Source → List Str × List Source
  | [], seen, acc => (seen, acc)
  | e :: es, seen, acc =>
    if evidenceId e ∈ seen then extractSourcesInner subQuery es seen acc
    else extractSourcesInner subQuery es (evidenceId e :: seen)
      (acc ++ [mkSource subQuery e])

/-- Outer loop of `_extract_sources` over the retrieval-results dict in
insertion order (`results[:2]` per sub-query). -/
def extractSourcesOuter :
    List (Str × List Evidence) → List Str → List Source → List Str × List Source
  | [], seen, acc => (seen, acc)
  | (subQuery, results) :: rest, seen, acc =>
    let p := extractSourcesInner subQuery (results.take 2) seen acc
    extractSourcesOuter rest p.1 p.2

/-- The full (un-truncated) sources list accumulated by `_extract_sources`. -/
def extractAllSources (retrievalResults : List (Str × List Evidence)) :
    List Source :=
  (extractSourcesOuter retrievalResults [] []).2

/-- `ResultSynthesizer._extract_sources`, including the final `sources[:5]`. -/
def extractSources (retrievalResults : List (Str × List Evidence)) :
    List Source :=
  (extractAllSources retrievalResults).take 5

/-- The candidate citations: per sub-query in dict order, the top two
evidence items. -/
def sourceCandidates (retrievalResults : List (Str × List Evidence)) :
    List (Str × Evidence) :=
  retrievalResults.flatMap fun p => (p.2.take 2).map fun e => (p.1, e)

/-! ## Orchestrator (`FinancialQAAgent`, `QueryProcessor`, `main.py`) -/

/-- The error answer built by the `except` handler of
`FinancialQAAgent.answer_query`. -/
def errorAnswer (query err : Str) : Answer :=
  { query := query
    answer := str "An error occurred while processing your query: " ++ err
    reasoning := str "System error during processing"
    sub_queries := []
    sources := []
    confidence := .low }

/-- The per-sub-query retrieval loop of `answer_query` (lines 45-48): a plain
`for` inside the surrounding `try`, so the first raised retrieval error
propagates and no later sub-query is retrieved. -/
def retrieveLoop (retrieve : Str → Except Str (List Evidence)) :
    List Str → Except Str (List (Str × List Evidence))
  | [] => .ok []
  | subQuery :: rest =>
    match retrieve subQuery with
    | .error e => .error e
    | .ok results =>
      match retrieveLoop retrieve rest with
      | .error e => .error e
      | .ok tail => .ok ((subQuery, results) :: tail)

/-- `FinancialQAAgent.answer_query` from the point where the sub-queries are
known: run retrieval per sub-query, then synthesis; any raised error is
converted by the `except` handler into `errorAnswer`.  Retrieval and
synthesis are external-call-bearing collaborators passed as parameters. -/
def answerQuery (retrieve : Str → Except Str (List Evidence))
    (synthesize : List Str → List (Str × List Evidence) → Answer)
    (query : Str) (subQueries : List Str) : Answer :=
  match retrieveLoop retrieve subQueries with
  | .ok retrievalResults => synthesize subQueries retrievalResults
  | .error e => errorAnswer query e

/-- The alias-replacement table of `QueryProcessor.preprocess_query`. -/
def aliasReplacements : List (Str × Str) :=
  [(str "alphabet", str "google"), (str "googl", str "google"),
   (str "msft", str "microsoft"), (str "nvda", str "nvidia")]

/-- The loop applying the alias replacements to the lower-cased copy. -/
def applyAliases (s : Str) : Str :=
  aliasReplacements.foldl (fun acc p => pyReplace p.1 p.2 acc) s

/-- Per-word branch of `preprocess_query`: `word.lower().title()` when the
lower-cased word is one of the three company names (the title-cased forms of
those fixed names are written out), the word unchanged otherwise. -/
def replWord (w : Str) : Str :=
  let wl := pyLower w
  if wl = str "google" then str "Google"
  else if wl = str "microsoft" then str "Microsoft"
  else if wl = str "nvidia" then str "Nvidia"
  else w

/-- `QueryProcessor.preprocess_query`: strip, build the alias-rewritten
lower-cased copy (bound to a variable the source never reads), split on
whitespace, title-case company words, join with single spaces. -/
def preprocessQuery (q : Str) : Str :=
  let stripped := pyStrip q
  let _queryLower := applyAliases (pyLower stripped)
  joinSpace ((pySplitWs stripped).map replWord)

/-- The validation keyword vocabulary of `QueryProcessor.validate_query`. -/
def validationKeywords : List Str :=
  [str "revenue", str "income", str "profit", str "sales", str "margin",
   str "earnings", str "financial", str "money", str "dollar", str "billion",
   str "million", str "growth", str "year", str "annual", str "quarterly",
   str "fiscal", str "operating", str "net"]

/-- `any(keyword in query_lower for keyword in financial_keywords)`. -/
def hasFinancialKeyword (q : Str) : Bool :=
  validationKeywords.any fun kw => containsSub (pyLower q) kw

/-- The specific rejection message for non-financial queries. -/
def notFinancialMsg : Str :=
  str "Query doesn\x27t appear to be financial-related"

/-- `QueryProcessor.validate_query`. -/
def validateQuery (q : Str) : Bool × Str :=
  if (pyStrip q).length < 5 then (false, str "Query too short")
  else if 500 < q.length then (false, str "Query too long")
  else if !hasFinancialKeyword q then (false, notFinancialMsg)
  else (true, str "Valid query")

/-- The rejection answer built by `process_single_query` in `main.py`. -/
def invalidAnswer (query msg : Str) : Answer :=
  { query := query
    answer := str "Invalid query: " ++ msg
    reasoning := str "Query validation failed"
    sub_queries := []
    sources := []
    confidence := .low }

/-- `process_single_query` in `main.py`: preprocess, validate, and only on
success hand the preprocessed query to the agent pipeline (whose first stage
is the classifier), abstracted as `pipeline`. -/
def processSingleQuery (pipeline : Str → Answer) (query : Str) : Answer :=
  let processed := preprocessQuery query
  let v := validateQuery processed
  if v.1 then pipeline processed else invalidAnswer query v.2

/-! ## Spec-side definitions -/

/-- Worker for the claim-literal reading of the preprocessing contract:
replace each whitespace-separated word in place, leaving every separator
character where it was. -/
def mapWordsGo (f : Str → Str) (cur : Str) : Str → Str
  | [] => f cur.reverse
  | c :: cs =>
    if isPySpace c then f cur.reverse ++ c :: mapWordsGo f [] cs
    else mapWordsGo f (c :: cur) cs

/-- Modelled from the claim wording for C10: the input stripped of leading and
trailing whitespace with each whitespace-separated word replaced through
`replWord` and all internal whitespace kept. -/
def claimPreprocessC10 (q : Str) : Str := mapWordsGo replWord [] (pyStrip q)

/-- Ceiling division, as the claim's `ceil(n / |companies|)`. -/
def ceilDiv (a b : Nat) : Nat := (a + b - 1) / b

/-! ## Concrete inputs used by counterexamples and witnesses -/

/-- A well-formed classification result whose extracted lists are all empty,
as produced for a cross-company query naming no company. -/
def infoCrossEmpty : ClassificationInfo :=
  { qtype := .CROSS_COMPANY, companies := [], years := [], metrics := [],
    complexity_score := 1 }

/-- A sample evidence item. -/
def evSample : Evidence :=
  { text := [], company := str "GOOGL", year := 2023, sectionName := str "10-K",
    distance := mkRat 1 2 }

/-- A recognizable synthesized answer, standing for a run of the synthesizer. -/
def markAnswer : Answer :=
  { query := str "q", answer := str "synthesized", reasoning := str "ok",
    sub_queries := [], sources := [], confidence := .high }

/-- A retrieval stub failing on the first sub-query only. -/
def failFirstRetrieve (subQuery : Str) : Except Str (List Evidence) :=
  if subQuery = str "GOOGL revenue 2022" then .error (str "embedding error")
  else .ok [evSample]

/-- The first candidate evidence item of `rrSix`. -/
def firstCandidate : Evidence :=
  { text := [], company := str "GOOGL", year := 2022, sectionName := str "A",
    distance := mkRat 4 5 }

/-- The candidate of `rrSix` that the code drops although its relevance is
higher than that of kept candidates. -/
def droppedCandidate : Evidence :=
  { text := [], company := str "NVDA", year := 2022, sectionName := str "B",
    distance := mkRat 1 5 }

/-- Six evidence items with pairwise distinct `(company, year, section)`
triples; the last one has the lowest distance of its sub-query's tail. -/
def rrSix : List (Str × List Evidence) :=
  [(str "q1",
    [firstCandidate,
     { text := [], company := str "GOOGL", year := 2022,
       sectionName := str "B", distance := mkRat 9 10 }]),
   (str "q2",
    [{ text := [], company := str "MSFT", year := 2022,
       sectionName := str "A", distance := mkRat 7 10 },
     { text := [], company := str "MSFT", year := 2022,
       sectionName := str "B", distance := mkRat 17 20 }]),
   (str "q3",
    [{ text := [], company := str "NVDA", year := 2022,
       sectionName := str "A", distance := mkRat 1 10 },
     droppedCandidate])]

/-- The evidence item kept by first-wins deduplication in `rrDup`. -/
def dupFirst : Evidence :=
  { text := [], company := str "GOOGL", year := 2023,
    sectionName := str "10-K", distance := mkRat 1 4 }

/-- Two sub-queries whose top evidence items share one
`(company, year, section)` triple. -/
def rrDup : List (Str × List Evidence) :=
  [(str "q1", [dupFirst]),
   (str "q2",
    [{ text := [], company := str "GOOGL", year := 2023,
       sectionName := str "10-K", distance := mkRat 3 4 }])]

/-- A store stub whose single result records the requested item count in its
`year` and `distance` fields, making the per-company quota observable. -/
def probeStore : Str → Str → Nat → List Evidence :=
  fun _ company n =>
    [{ text := [], company := company, year := n, sectionName := str "S",
       distance := (n : ℚ) }]

/-- A store stub returning no results. -/
def emptyStore : Str → Str → Nat → List Evidence := fun _ _ _ => []

/-- A 501-character query: the keyword `revenue` followed by 494 spaces. -/
def longPaddedQuery : Str := str "revenue" ++ List.replicate 494 ' '

/-- A pipeline stub recording that the classifier stage was reached. -/
def pipelineMark (processed : Str) : Answer :=
  { query := processed, answer := str "pipeline entered",
    reasoning := str "classifier invoked", sub_queries := [], sources := [],
    confidence := .high }

/-! ## Helper lemmas on the string model -/

theorem leadsWith_append (xs ys : Str) : leadsWith xs (xs ++ ys) = true := by
  induction xs with
  | nil => rfl
  | cons a as ih => simp [leadsWith, ih]

theorem containsSub_of_suffix (x t n : Str) (h : containsSub t n = true) :
    containsSub (x ++ t) n = true := by
  induction x with
  | nil => simpa using h
  | cons a as ih => simp [containsSub, ih]

theorem containsSub_self_append (n ys : Str) :
    containsSub (n ++ ys) n = true := by
  cases n with
  | nil => cases ys <;> simp [containsSub, leadsWith]
  | cons b bs =>
    have h := leadsWith_append (b :: bs) ys
    simp only [List.cons_append] at h ⊢
    simp [containsSub, h]

/-! ## Helper lemmas: decomposition (C1, C7) -/

theorem ite_isEmpty_ne_nil (q : Str) (s : List Str) :
    (if s.isEmpty then [q] else s) ≠ [] := by
  cases s with
  | nil => simp
  | cons a as => simp

theorem decomposeYoy_ne_nil (q : Str) (info : ClassificationInfo) :
    decomposeYoy q info ≠ [] := by
  unfold decomposeYoy
  exact ite_isEmpty_ne_nil q _

theorem decomposeComplex_ne_nil (llm : Except Str Str) (q : Str) :
    decomposeComplex llm q ≠ [] := by
  unfold decomposeComplex
  cases llm with
  | error e => simp
  | ok text => exact ite_isEmpty_ne_nil q _

theorem decomposeSegment_ne_nil (q : Str) (info : ClassificationInfo) :
    decomposeSegment q info ≠ [] := by
  unfold decomposeSegment
  cases h : info.companies with
  | nil =>
    simp only [List.isEmpty_nil, if_true]
    split
    · simp
    · split
      · simp
      · split <;> simp
  | cons c cs => simp [h]

theorem decomposeCrossCompany_eq_nil_iff (info : ClassificationInfo) :
    (decomposeCrossCompany info = [] ↔ info.companies = []) := by
  unfold decomposeCrossCompany
  cases h : info.companies with
  | nil => simp [h]
  | cons c cs =>
    constructor
    · intro hnil
      exfalso
      simp only [List.flatMap_cons, List.append_eq_nil] at hnil
      rcases hnil with ⟨h1, -⟩
      by_cases hm : info.metrics.isEmpty
      · rw [if_pos hm] at h1
        simp at h1
      · rw [if_neg hm] at h1
        rw [List.map_eq_nil_iff] at h1
        exact hm (by simp [h1])
    · intro hc
      exact absurd hc (List.cons_ne_nil c cs)

/-! ## Claim C1 -/

/-- Claim C1, counterexample: for a cross-company query whose well-formed
classification extracted no company (all three lists empty),
`decompose_query` returns the empty list — the cross-company path has no
`[query]` fallback, so the output is not always non-empty. -/
theorem cexC1_crossCompanyEmptyDecomposition :
    decomposeQuery (.ok (str "x"))
        (str "which company had the highest operating margin")
        .CROSS_COMPANY infoCrossEmpty = [] ∧
      ¬ 1 ≤ (decomposeQuery (.ok (str "x"))
        (str "which company had the highest operating margin")
        .CROSS_COMPANY infoCrossEmpty).length := by
  decide

/-- Claim C1 (amended): `decompose_query` returns a non-empty list for every
query, every generative-model outcome and every well-formed classification
result on the `SimpleDirect`, `ComparativeYoY`, `ComplexMultiAspect` and
`SegmentAnalysis` paths, which all carry a `[query]` fallback; the
`CrossCompany` path lacks that fallback and returns the empty list exactly
when the extracted companies list is empty. -/
theorem thmC1_decompositionEmptyIff (llm : Except Str Str) (q : Str)
    (t : QueryType) (info : ClassificationInfo) :
    (decomposeQuery llm q t info = [] ↔
      (t = .CROSS_COMPANY ∧ info.companies = [])) := by
  cases t with
  | SIMPLE_DIRECT => simp [decomposeQuery]
  | COMPARATIVE_YOY => simp [decomposeQuery, decomposeYoy_ne_nil q info]
  | CROSS_COMPANY => simp [decomposeQuery, decomposeCrossCompany_eq_nil_iff]
  | COMPLEX_MULTI_ASPECT => simp [decomposeQuery, decomposeComplex_ne_nil llm q]
  | SEGMENT_ANALYSIS => simp [decomposeQuery, decomposeSegment_ne_nil q info]

/-- Witness for C1's theorem at a concrete simple-direct instance. -/
theorem witC1_decompositionEmptyIff :
    (decomposeQuery (.ok (str "x")) (str "msft revenue in 2023")
        .SIMPLE_DIRECT infoCrossEmpty = [] ↔
      (QueryType.SIMPLE_DIRECT = QueryType.CROSS_COMPANY ∧
        infoCrossEmpty.companies = [])) :=
  thmC1_decompositionEmptyIff _ _ _ _

/-! ## Claim C7 -/

/-- Claim C7 (confirmed): with exactly two distinct extracted years, one
company and one metric, `ComparativeYoY` decomposition yields exactly two
sub-queries `"{company} {metric} {year}"`, one per year, each containing the
company and the metric as substrings; with fewer than two extracted years it
returns `[query]`. -/
theorem thmC7_yoyTwoYears (llm : Except Str Str) (q c m : Str) (y1 y2 : Nat)
    (qt : QueryType) (sc : Nat) (_hy : y1 ≠ y2) :
    (decomposeQuery llm q .COMPARATIVE_YOY
        { qtype := qt, companies := [c], years := [y1, y2], metrics := [m],
          complexity_score := sc } =
      [fmtSubQuery c m y1, fmtSubQuery c m y2]) ∧
    containsSub (fmtSubQuery c m y1) c = true ∧
    containsSub (fmtSubQuery c m y1) m = true ∧
    containsSub (fmtSubQuery c m y2) c = true ∧
    containsSub (fmtSubQuery c m y2) m = true ∧
    (∀ info : ClassificationInfo, info.years.length < 2 →
      decomposeQuery llm q .COMPARATIVE_YOY info = [q]) := by
  refine ⟨rfl, ?_, ?_, ?_, ?_, ?_⟩
  · simpa [fmtSubQuery] using
      containsSub_self_append c (' ' :: m ++ ' ' :: natStr y1)
  · have h := containsSub_of_suffix (c ++ [' ']) (m ++ ' ' :: natStr y1) m
      (containsSub_self_append m (' ' :: natStr y1))
    simpa [fmtSubQuery, List.append_assoc] using h
  · simpa [fmtSubQuery] using
      containsSub_self_append c (' ' :: m ++ ' ' :: natStr y2)
  · have h := containsSub_of_suffix (c ++ [' ']) (m ++ ' ' :: natStr y2) m
      (containsSub_self_append m (' ' :: natStr y2))
    simpa [fmtSubQuery, List.append_assoc] using h
  · intro info hlen
    have h2 : ¬ 2 ≤ info.years.length := by omega
    simp [decomposeQuery, decomposeYoy, h2]

/-- Witness for C7's theorem at `MSFT revenue 2022/2023`. -/
theorem witC7_yoyTwoYears :
    decomposeQuery (.ok (str "x")) (str "compare msft revenue 2022 to 2023")
        .COMPARATIVE_YOY
        { qtype := .COMPARATIVE_YOY, companies := [str "MSFT"],
          years := [2022, 2023], metrics := [str "revenue"],
          complexity_score := 3 } =
      [str "MSFT revenue 2022", str "MSFT revenue 2023"] := by
  have h := thmC7_yoyTwoYears (.ok (str "x"))
    (str "compare msft revenue 2022 to 2023") (str "MSFT") (str "revenue")
    2022 2023 .COMPARATIVE_YOY 3 (by decide)
  exact h.1.trans (by decide)

/-! ## Claim C2 -/

theorem retrieveLoop_error (retrieve : Str → Except Str (List Evidence))
    (pre : List Str) (s : Str) (post : List Str) (e : Str)
    (hpre : ∀ x ∈ pre, ∃ l, retrieve x = .ok l)
    (hs : retrieve s = .error e) :
    retrieveLoop retrieve (pre ++ s :: post) = .error e := by
  induction pre with
  | nil => simp [retrieveLoop, hs]
  | cons x pre ih =>
    obtain ⟨l, hl⟩ := hpre x (List.mem_cons_self x pre)
    have ih2 := ih fun y hy => hpre y (List.mem_cons_of_mem x hy)
    simp [retrieveLoop, hl, ih2]

/-- Claim C2, counterexample: with two sub-queries where retrieval fails on
the first and would succeed on the second, `answer_query` returns the
error answer: the surviving sub-query is never retrieved and synthesis never
runs, because the per-sub-query loop sits inside the single `try` block. -/
theorem cexC2_retrievalFailureAborts :
    answerQuery failFirstRetrieve (fun _ _ => markAnswer) (str "orig")
        [str "GOOGL revenue 2022", str "GOOGL revenue 2023"] =
      errorAnswer (str "orig") (str "embedding error") ∧
    errorAnswer (str "orig") (str "embedding error") ≠ markAnswer ∧
    failFirstRetrieve (str "GOOGL revenue 2023") = .ok [evSample] := by
  decide

/-- Claim C2 (amended): when retrieval raises for any sub-query (all earlier
sub-queries having succeeded), the whole loop aborts: `answer_query` returns
the low-confidence error answer for the first raised error, independently of
the synthesizer and of the remaining sub-queries, instead of retrieving them
and synthesizing the surviving evidence. -/
theorem thmC2_retrievalFailureAborts
    (retrieve : Str → Except Str (List Evidence))
    (synthesize : List Str → List (Str × List Evidence) → Answer)
    (q : Str) (pre : List Str) (s : Str) (post : List Str) (e : Str)
    (hpre : ∀ x ∈ pre, ∃ l, retrieve x = .ok l)
    (hs : retrieve s = .error e) :
    answerQuery retrieve synthesize q (pre ++ s :: post) =
        errorAnswer q e ∧
      (answerQuery retrieve synthesize q (pre ++ s :: post)).confidence =
        .low := by
  have h := retrieveLoop_error retrieve pre s post e hpre hs
  constructor
  · simp [answerQuery, h]
  · simp [answerQuery, h, errorAnswer]

/-- Witness for C2's theorem: retrieval succeeds on a leading sub-query and
fails on the second of three. -/
theorem witC2_retrievalFailureAborts :
    answerQuery failFirstRetrieve (fun _ _ => markAnswer) (str "w")
        ([str "NVDA margin"] ++ str "GOOGL revenue 2022" :: [str "MSFT sales"]) =
      errorAnswer (str "w") (str "embedding error") :=
  (thmC2_retrievalFailureAborts failFirstRetrieve (fun _ _ => markAnswer)
    (str "w") [str "NVDA margin"] (str "GOOGL revenue 2022") [str "MSFT sales"]
    (str "embedding error")
    (fun x hx => ⟨[evSample], by
      have hx2 : x = str "NVDA margin" := by simpa using hx
      subst hx2
      decide⟩)
    (by decide)).1

/-! ## Claim C3 -/

theorem mem_extractSourcesInner (sq : Str) :
    ∀ (es : List Evidence) (seen : List Str) (acc : List Source) (s : Source),
      s ∈ (extractSourcesInner sq es seen acc).2 →
        s ∈ acc ∨ ∃ e ∈ es, s = mkSource sq e := by
  intro es
  induction es with
  | nil =>
    intro seen acc s h
    exact .inl (by simpa [extractSourcesInner] using h)
  | cons e es ih =>
    intro seen acc s h
    by_cases hid : evidenceId e ∈ seen
    · rcases ih seen acc s
        (by simpa [extractSourcesInner, hid] using h) with h1 | ⟨e', he', hs⟩
      · exact .inl h1
      · exact .inr ⟨e', List.mem_cons_of_mem e he', hs⟩
    · rcases ih (evidenceId e :: seen) (acc ++ [mkSource sq e]) s
        (by simpa [extractSourcesInner, hid] using h) with h1 | ⟨e', he', hs⟩
      · rcases List.mem_append.mp h1 with h2 | h2
        · exact .inl h2
        · exact .inr ⟨e, List.mem_cons_self e es, by simpa using h2⟩
      · exact .inr ⟨e', List.mem_cons_of_mem e he', hs⟩

theorem mem_extractSourcesOuter :
    ∀ (rr : List (Str × List Evidence)) (seen : List Str) (acc : List Source)
      (s : Source),
      s ∈ (extractSourcesOuter rr seen acc).2 →
        s ∈ acc ∨ ∃ sq e, (sq, e) ∈ sourceCandidates rr ∧ s = mkSource sq e := by
  intro rr
  induction rr with
  | nil =>
    intro seen acc s h
    exact .inl (by simpa [extractSourcesOuter] using h)
  | cons p rest ih =>
    obtain ⟨sq, results⟩ := p
    intro seen acc s h
    have h0 : s ∈ (extractSourcesOuter rest
        (extractSourcesInner sq (results.take 2) seen acc).1
        (extractSourcesInner sq (results.take 2) seen acc).2).2 := by
      simpa [extractSourcesOuter] using h
    rcases ih _ _ s h0 with h1 | ⟨sq', e', hm, hs⟩
    · rcases mem_extractSourcesInner sq (results.take 2) seen acc s h1 with
        h2 | ⟨e', he', hs⟩
      · exact .inl h2
      · refine .inr ⟨sq, e', ?_, hs⟩
        simp only [sourceCandidates, List.flatMap_cons]
        exact List.mem_append_left _ (List.mem_map_of_mem _ he')
    · refine .inr ⟨sq', e', ?_, hs⟩
      simp only [sourceCandidates, List.flatMap_cons]
      exact List.mem_append_right _ hm

/-- Claim C3 (amended): every synthesized `sources` list has at most five
entries, obtained by truncating to the first five deduplicated candidate
citations in sub-query iteration order (top two evidence items per
sub-query), each carrying `relevance_score = round(1 - distance, 3)`; the
cap keeps the first five candidates in encounter order, it does not rank
candidates by relevance. -/
theorem thmC3_sourcesCapAndOrigin (rr : List (Str × List Evidence)) :
    (extractSources rr).length ≤ 5 ∧
    extractSources rr = (extractAllSources rr).take 5 ∧
    (∀ s, s ∈ extractSources rr →
      ∃ sq e, (sq, e) ∈ sourceCandidates rr ∧ s = mkSource sq e ∧
        s.relevance_score = round3 (1 - e.distance)) := by
  refine ⟨List.length_take_le 5 _, rfl, ?_⟩
  intro s hs
  have h1 : s ∈ extractAllSources rr := List.mem_of_mem_take hs
  rcases mem_extractSourcesOuter rr [] [] s h1 with h2 | ⟨sq, e, hm, hsrc⟩
  · simp at h2
  · exact ⟨sq, e, hm, hsrc, by rw [hsrc]; rfl⟩

/-- Witness for C3's theorem applied to the concrete `rrDup` input. -/
theorem witC3_sourcesCapAndOrigin :
    ∃ sq e, (sq, e) ∈ sourceCandidates rrDup ∧
      mkSource (str "q1") dupFirst = mkSource sq e ∧
      (mkSource (str "q1") dupFirst).relevance_score =
        round3 (1 - e.distance) :=
  (thmC3_sourcesCapAndOrigin rrDup).2.2 (mkSource (str "q1") dupFirst) (by
    rw [show extractSources rrDup = [mkSource (str "q1") dupFirst] from rfl]
    exact List.mem_singleton_self _)

/-- Claim C3, counterexample: on `rrSix` the code keeps the first five
deduplicated candidates in sub-query order (relevance scores
`[0.2, 0.1, 0.3, 0.15, 0.9]`) and drops the sixth candidate although its
relevance `0.8` exceeds that of four kept entries, so the sources are not
the top five candidates ranked by relevance. -/
theorem cexC3_sourcesNotTopFive :
    (extractSources rrSix).map (fun s => s.relevance_score) =
        [mkRat 1 5, mkRat 1 10, mkRat 3 10, mkRat 3 20, mkRat 9 10] ∧
      (str "q3", droppedCandidate) ∈ sourceCandidates rrSix ∧
      (mkSource (str "q3") droppedCandidate).relevance_score = mkRat 4 5 ∧
      evidenceId droppedCandidate ∉ (extractSources rrSix).map sourceId ∧
      ((sourceCandidates rrSix).map (fun p => evidenceId p.2)).Nodup ∧
      (extractSources rrSix).length = 5 := by
  refine ⟨?_, by decide, ?_, by decide, by decide, rfl⟩
  · have h : (extractSources rrSix).map (fun s => s.relevance_score) =
        [round3 (1 - mkRat 4 5), round3 (1 - mkRat 9 10),
         round3 (1 - mkRat 7 10), round3 (1 - mkRat 17 20),
         round3 (1 - mkRat 1 10)] := rfl
    rw [h]
    norm_num [round3, round_eq, Rat.mkRat_eq_divInt, Rat.divInt_eq_div]
  · show round3 (1 - droppedCandidate.distance) = mkRat 4 5
    norm_num [round3, round_eq, Rat.mkRat_eq_divInt, Rat.divInt_eq_div,
      droppedCandidate]

/-! ## Claim C6 -/

theorem extractSourcesInner_inv (sq : Str) :
    ∀ (es : List Evidence) (seen : List Str) (acc : List Source),
      (∀ s ∈ acc, sourceId s ∈ seen) →
      acc.Pairwise (fun a b => sourceId a ≠ sourceId b) →
      ((∀ s ∈ (extractSourcesInner sq es seen acc).2,
          sourceId s ∈ (extractSourcesInner sq es seen acc).1) ∧
        (extractSourcesInner sq es seen acc).2.Pairwise
          (fun a b => sourceId a ≠ sourceId b)) := by
  intro es
  induction es with
  | nil =>
    intro seen acc h1 h2
    exact ⟨by simpa [extractSourcesInner] using h1,
      by simpa [extractSourcesInner] using h2⟩
  | cons e es ih =>
    intro seen acc h1 h2
    by_cases hid : evidenceId e ∈ seen
    · have hstep : extractSourcesInner sq (e :: es) seen acc =
          extractSourcesInner sq es seen acc := by
        simp [extractSourcesInner, hid]
      rw [hstep]
      exact ih seen acc h1 h2
    · have h1a : ∀ s ∈ acc ++ [mkSource sq e],
          sourceId s ∈ evidenceId e :: seen := by
        intro s hsm
        rcases List.mem_append.mp hsm with h | h
        · exact List.mem_cons_of_mem _ (h1 s h)
        · have hx : s = mkSource sq e := by simpa using h
          subst hx
          rw [show sourceId (mkSource sq e) = evidenceId e from rfl]
          exact List.mem_cons_self _ _
      have h2a : (acc ++ [mkSource sq e]).Pairwise
          (fun a b => sourceId a ≠ sourceId b) := by
        rw [List.pairwise_append]
        refine ⟨h2, List.pairwise_singleton _ _, ?_⟩
        intro a ha b hb
        have hb2 : b = mkSource sq e := by simpa using hb
        subst hb2
        rw [show sourceId (mkSource sq e) = evidenceId e from rfl]
        intro hEq
        exact hid (hEq ▸ h1 a ha)
      have hstep : extractSourcesInner sq (e :: es) seen acc =
          extractSourcesInner sq es (evidenceId e :: seen)
            (acc ++ [mkSource sq e]) := by
        simp [extractSourcesInner, hid]
      rw [hstep]
      exact ih (evidenceId e :: seen) (acc ++ [mkSource sq e]) h1a h2a

theorem extractSourcesOuter_inv :
    ∀ (rr : List (Str × List Evidence)) (seen : List Str) (acc : List Source),
      (∀ s ∈ acc, sourceId s ∈ seen) →
      acc.Pairwise (fun a b => sourceId a ≠ sourceId b) →
      ((∀ s ∈ (extractSourcesOuter rr seen acc).2,
          sourceId s ∈ (extractSourcesOuter rr seen acc).1) ∧
        (extractSourcesOuter rr seen acc).2.Pairwise
          (fun a b => sourceId a ≠ sourceId b)) := by
  intro rr
  induction rr with
  | nil =>
    intro seen acc h1 h2
    exact ⟨by simpa [extractSourcesOuter] using h1,
      by simpa [extractSourcesOuter] using h2⟩
  | cons p rest ih =>
    obtain ⟨sq, results⟩ := p
    intro seen acc h1 h2
    have hin := extractSourcesInner_inv sq (results.take 2) seen acc h1 h2
    have hstep : extractSourcesOuter ((sq, results) :: rest) seen acc =
        extractSourcesOuter rest
          (extractSourcesInner sq (results.take 2) seen acc).1
          (extractSourcesInner sq (results.take 2) seen acc).2 := by
      simp [extractSourcesOuter]
    rw [hstep]
    exact ih _ _ hin.1 hin.2

/-- Claim C6 (confirmed): the synthesized `sources` list never contains two
entries with an identical `(company, year, section)` triple — deduplication
by the `company_year_section` identifier makes the retained entries pairwise
distinct on the triple; concretely, of two evidence items sharing a triple
the first one seen wins (`rrDup`). -/
theorem thmC6_sourceDedup :
    (∀ rr : List (Str × List Evidence),
      (extractSources rr).Pairwise (fun a b =>
        ¬(a.company = b.company ∧ a.year = b.year ∧
          a.sectionName = b.sectionName))) ∧
    extractSources rrDup = [mkSource (str "q1") dupFirst] := by
  constructor
  · intro rr
    have hp : (extractAllSources rr).Pairwise
        (fun a b => sourceId a ≠ sourceId b) :=
      (extractSourcesOuter_inv rr [] [] (by simp) (by simp)).2
    have hp5 : (extractSources rr).Pairwise
        (fun a b => sourceId a ≠ sourceId b) :=
      List.Pairwise.sublist (List.take_sublist 5 _) hp
    refine hp5.imp ?_
    intro a b hne htrip
    exact hne (by
      unfold sourceId srcId
      rw [htrip.1, htrip.2.1, htrip.2.2])
  · rfl

/-- Witness for C6's theorem at the concrete duplicate-triple input. -/
theorem witC6_sourceDedup :
    (extractSources rrDup).Pairwise (fun a b =>
      ¬(a.company = b.company ∧ a.year = b.year ∧
        a.sectionName = b.sectionName)) :=
  thmC6_sourceDedup.1 rrDup

/-! ## Claims C4 and C9 -/

theorem focusedLoop_eq (store : Str → Str → Nat → List Evidence) (q : Str)
    (all : List Str) (n : Nat) (hall : all ≠ []) :
    ∀ (iter : List Str) (acc : List Evidence),
      focusedLoop store q all n iter acc =
        .ok (acc ++ iter.flatMap fun f => store q f (n / all.length + 1)) := by
  have hlen : ¬ all.length = 0 := fun h => hall (List.length_eq_zero.mp h)
  intro iter
  induction iter with
  | nil => intro acc; simp [focusedLoop]
  | cons f fs ih =>
    intro acc
    have hdiv : pyDiv n all.length = .ok (n / all.length) := by
      simp [pyDiv, hlen]
    simp [focusedLoop, hdiv, ih, List.append_assoc]

theorem companyFocusedSearch_eq (store : Str → Str → Nat → List Evidence)
    (q : Str) (companies : List Str) (n : Nat) :
    companyFocusedSearch store q companies n =
      .ok ((sortByDistance (companies.flatMap fun c =>
        store q c (n / companies.length + 1))).take n) := by
  cases companies with
  | nil =>
    simp [companyFocusedSearch, focusedLoop, sortByDistance,
      List.insertionSort, Except.map]
  | cons c cs =>
    unfold companyFocusedSearch
    rw [focusedLoop_eq store q (c :: cs) n (by simp)]
    simp [Except.map]

theorem temporalSearch_eq (store : Str → Str → Nat → List Evidence)
    (q : Str) (years : List Nat) (n : Nat) :
    temporalSearch store q years n =
      .ok ((sortByDistance ((years.map natStr).flatMap fun y =>
        store q y (n / years.length + 1))).take n) := by
  cases years with
  | nil =>
    simp [temporalSearch, focusedLoop, sortByDistance,
      List.insertionSort, Except.map]
  | cons y ys =>
    unfold temporalSearch
    rw [focusedLoop_eq store q ((y :: ys).map natStr) n (by simp)]
    simp [Except.map]

/-- Claim C4, counterexample: with two companies and `n_results = 7` each
filtered query requests `7 // 2 + 1 = 4` items, observable through a probe
store that records the requested count; the claimed quota
`ceil(7 / 2) + 1 = 5` differs. -/
theorem cexC4_floorNotCeilQuota :
    (companyFocusedSearch probeStore (str "q") [str "A", str "B"] 7).map
        (fun l => l.map fun e => (e.company, e.year)) =
      .ok [(str "A", 4), (str "B", 4)] ∧
    7 / 2 + 1 = 4 ∧ ceilDiv 7 2 + 1 = 5 ∧ (4 : Nat) ≠ 5 := by
  refine ⟨?_, by decide, by decide, by decide⟩
  rfl

/-- Claim C4 (amended): the company-focused strategy issues exactly one
filtered query per company, each requesting `n // |companies| + 1` items
(floor division plus one, which equals `ceil(n / |companies|) + 1` only when
`|companies|` divides `n`), concatenates the per-company results, sorts them
ascending by distance, and returns at most `n` items. -/
theorem thmC4_companyFocusedQuota (store : Str → Str → Nat → List Evidence)
    (q : Str) (companies : List Str) (n : Nat) :
    companyFocusedSearch store q companies n =
      .ok ((sortByDistance (companies.flatMap fun c =>
        store q c (n / companies.length + 1))).take n) ∧
    ((sortByDistance (companies.flatMap fun c =>
        store q c (n / companies.length + 1))).take n).length ≤ n ∧
    List.Sorted distLe ((sortByDistance (companies.flatMap fun c =>
        store q c (n / companies.length + 1))).take n) := by
  refine ⟨companyFocusedSearch_eq store q companies n,
    List.length_take_le n _, ?_⟩
  exact List.Pairwise.sublist (List.take_sublist n _)
    (List.sorted_insertionSort distLe _)

/-- Witness for C4's theorem at a concrete store and company list. -/
theorem witC4_companyFocusedQuota :
    companyFocusedSearch probeStore (str "q") [str "A"] 6 =
      .ok ((sortByDistance ([str "A"].flatMap fun c =>
        probeStore (str "q") c (6 / [str "A"].length + 1))).take 6) :=
  (thmC4_companyFocusedQuota probeStore (str "q") [str "A"] 6).1

/-- Claim C9, counterexample: with an empty companies (or years) list the
quota division is never evaluated, because it sits inside the per-element
loop; both strategies return `.ok []` instead of raising
`ZeroDivisionError`. -/
theorem cexC9_emptyFilterListNoError :
    companyFocusedSearch emptyStore (str "q") [] 6 = .ok [] ∧
    temporalSearch emptyStore (str "q") [] 6 = .ok [] ∧
    companyFocusedSearch emptyStore (str "q") [] 6 ≠
      .error (str "ZeroDivisionError") ∧
    temporalSearch emptyStore (str "q") [] 6 ≠
      .error (str "ZeroDivisionError") := by
  refine ⟨rfl, rfl, by decide, by decide⟩

/-- Claim C9 (amended): the company-focused and temporal strategies are total
on every input: the unguarded division `n_results // len(...)` is an
argument of the search call inside the loop, evaluated once per iteration,
so an empty filter list runs zero iterations and yields the empty result
(no `ZeroDivisionError`), and a non-empty list always divides by a non-zero
length. -/
theorem thmC9_filterStrategiesTotal (store : Str → Str → Nat → List Evidence)
    (q : Str) (companies : List Str) (years : List Nat) (n : Nat) :
    companyFocusedSearch store q [] n = .ok [] ∧
    temporalSearch store q [] n = .ok [] ∧
    (∃ l, companyFocusedSearch store q companies n = .ok l) ∧
    (∃ l, temporalSearch store q years n = .ok l) := by
  refine ⟨?_, ?_, ⟨_, companyFocusedSearch_eq store q companies n⟩,
    ⟨_, temporalSearch_eq store q years n⟩⟩
  · rw [companyFocusedSearch_eq]
    simp [sortByDistance, List.insertionSort]
  · rw [temporalSearch_eq]
    simp [sortByDistance, List.insertionSort]

/-- Witness for C9's theorem: a non-empty company list also succeeds. -/
theorem witC9_filterStrategiesTotal :
    ∃ l, companyFocusedSearch emptyStore (str "q") [str "A"] 6 = .ok l :=
  (thmC9_filterStrategiesTotal emptyStore (str "q") [str "A"] [2023] 6).2.2.1

/-! ## Claim C5 -/

theorem keywordMatches_le_six (q t : Str) : keywordMatches q t ≤ 6 := by
  unfold keywordMatches
  exact le_trans (List.countP_le_length _) (by decide)

/-- Claim C5 (confirmed): for a non-negative distance `d` and the keyword
match count `k` of the hybrid strategy, the adjusted distance
`d * (1 - 0.1 * k)` (applied only when `k > 0`, which coincides with the
unconditional formula) is never above `d` and never negative; the keyword
vocabulary has six entries so `k ≤ 6` and the factor `1 - 0.1 * k` stays in
`[0.4, 1]`; and one more keyword match never increases the adjusted
distance.  The final conjunct ties the adjustment to `_hybrid_search`. -/
theorem thmC5_hybridAdjustment (q t : Str) (d : ℚ) (hd : 0 ≤ d) :
    adjustDistance d (keywordMatches q t) ≤ d ∧
    0 ≤ adjustDistance d (keywordMatches q t) ∧
    keywordMatches q t ≤ 6 ∧
    (2/5 : ℚ) ≤ 1 - (1/10) * (keywordMatches q t : ℚ) ∧
    1 - (1/10) * (keywordMatches q t : ℚ) ≤ 1 ∧
    (∀ k : ℕ, adjustDistance d (k + 1) ≤ adjustDistance d k) ∧
    (∀ (store0 : Str → Nat → List Evidence) (nR : Nat),
      hybridSearch store0 q nR =
        sortByDistance ((store0 q nR).map fun r =>
          { r with
            distance := adjustDistance r.distance (keywordMatches q r.text) })) := by
  have hk6 : keywordMatches q t ≤ 6 := keywordMatches_le_six q t
  have hkQ : ((keywordMatches q t : ℕ) : ℚ) ≤ 6 := by exact_mod_cast hk6
  have hkQ0 : (0 : ℚ) ≤ ((keywordMatches q t : ℕ) : ℚ) := by positivity
  refine ⟨?_, ?_, hk6, by linarith, by linarith, ?_, fun _ _ => rfl⟩
  · unfold adjustDistance
    split
    · exact mul_le_of_le_one_right hd (by linarith)
    · exact le_refl d
  · unfold adjustDistance
    split
    · exact mul_nonneg hd (by linarith)
    · exact hd
  · intro k
    unfold adjustDistance
    by_cases hk : 0 < k
    · rw [if_pos (Nat.succ_pos k), if_pos hk]
      refine mul_le_mul_of_nonneg_left ?_ hd
      push_cast
      linarith
    · have hk0 : k = 0 := by omega
      subst hk0
      rw [if_pos (Nat.succ_pos 0), if_neg (by omega)]
      have h1 : d * (1 - (1/10) * (((0 : ℕ) + 1 : ℕ) : ℚ)) ≤ d * 1 :=
        mul_le_mul_of_nonneg_left (by norm_num) hd
      simpa using h1

/-- Witness for C5's theorem at a concrete query, text and distance. -/
theorem witC5_hybridAdjustment :
    adjustDistance (mkRat 1 2)
        (keywordMatches (str "revenue growth")
          (str "total revenue and profit")) ≤
      mkRat 1 2 :=
  (thmC5_hybridAdjustment (str "revenue growth")
    (str "total revenue and profit") (mkRat 1 2)
    (by norm_num [Rat.mkRat_eq_divInt, Rat.divInt_eq_div])).1

/-! ## Claim C10 -/

theorem splitWsGo_dropWhile (s : Str) :
    splitWsGo [] (s.dropWhile isPySpace) = splitWsGo [] s := by
  induction s with
  | nil => rfl
  | cons c cs ih =>
    cases hc : isPySpace c with
    | true => simpa [List.dropWhile, hc, splitWsGo] using ih
    | false => simp [List.dropWhile, hc]

theorem splitWsGo_allSpace :
    ∀ (sp : Str), (∀ c ∈ sp, isPySpace c = true) →
      ∀ cur, splitWsGo cur sp = splitWsGo cur [] := by
  intro sp
  induction sp with
  | nil => intro _ cur; rfl
  | cons c sp ih =>
    intro h cur
    have hc : isPySpace c = true := h c (List.mem_cons_self c sp)
    have hrest := ih fun x hx => h x (List.mem_cons_of_mem c hx)
    cases cur with
    | nil =>
      simp only [splitWsGo, hc, if_true, List.isEmpty_nil]
      rw [hrest []]
      rfl
    | cons a as =>
      rw [show splitWsGo (a :: as) (c :: sp) =
          (a :: as).reverse :: splitWsGo [] sp from by simp [splitWsGo, hc]]
      rw [hrest []]
      rfl

theorem splitWsGo_append_spaces :
    ∀ (t sp : Str), (∀ c ∈ sp, isPySpace c = true) →
      ∀ cur, splitWsGo cur (t ++ sp) = splitWsGo cur t := by
  intro t
  induction t with
  | nil => intro sp hsp cur; exact splitWsGo_allSpace sp hsp cur
  | cons c t ih =>
    intro sp hsp cur
    show splitWsGo cur (c :: (t ++ sp)) = splitWsGo cur (c :: t)
    cases hc : isPySpace c with
    | true =>
      cases cur with
      | nil =>
        rw [show splitWsGo [] (c :: (t ++ sp)) = splitWsGo [] (t ++ sp) from
            by simp [splitWsGo, hc]]
        rw [show splitWsGo [] (c :: t) = splitWsGo [] t from
            by simp [splitWsGo, hc]]
        exact ih sp hsp []
      | cons a as =>
        rw [show splitWsGo (a :: as) (c :: (t ++ sp)) =
            (a :: as).reverse :: splitWsGo [] (t ++ sp) from
            by simp [splitWsGo, hc]]
        rw [show splitWsGo (a :: as) (c :: t) =
            (a :: as).reverse :: splitWsGo [] t from
            by simp [splitWsGo, hc]]
        rw [ih sp hsp []]
    | false =>
      rw [show splitWsGo cur (c :: (t ++ sp)) =
          splitWsGo (c :: cur) (t ++ sp) from by simp [splitWsGo, hc]]
      rw [show splitWsGo cur (c :: t) = splitWsGo (c :: cur) t from
          by simp [splitWsGo, hc]]
      exact ih sp hsp (c :: cur)

theorem dropWhile_eq_strip_append (s : Str) :
    ∃ sp, (∀ c ∈ sp, isPySpace c = true) ∧
      s.dropWhile isPySpace = pyStrip s ++ sp := by
  refine ⟨((s.dropWhile isPySpace).reverse.takeWhile isPySpace).reverse,
    ?_, ?_⟩
  · intro c hc
    rw [List.mem_reverse] at hc
    exact List.mem_takeWhile_imp hc
  · conv_lhs => rw [← List.reverse_reverse (s.dropWhile isPySpace),
      ← List.takeWhile_append_dropWhile
        (fun c => isPySpace c) (s.dropWhile isPySpace).reverse]
    rw [List.reverse_append]
    rfl

theorem pySplitWs_pyStrip (s : Str) :
    pySplitWs (pyStrip s) = pySplitWs s := by
  obtain ⟨sp, hsp, hdec⟩ := dropWhile_eq_strip_append s
  unfold pySplitWs
  rw [← splitWsGo_dropWhile s, hdec,
    splitWsGo_append_spaces (pyStrip s) sp hsp]

/-- Claim C10, counterexample: internal whitespace is collapsed, so
`preprocess_query` is not the input stripped with words replaced in place:
on `"net  income"` (double space, no replaceable word) the code returns
`"net income"`, while the claim's reading keeps `"net  income"`. -/
theorem cexC10_whitespaceCollapsed :
    preprocessQuery (str "net  income") = str "net income" ∧
    claimPreprocessC10 (str "net  income") = str "net  income" ∧
    preprocessQuery (str "net  income") ≠
      claimPreprocessC10 (str "net  income") := by
  decide

/-- Claim C10 (amended): `preprocess_query` equals the whitespace-separated
words of the input, each word that case-insensitively equals
google/microsoft/nvidia replaced by its title-cased form and every other
word unchanged, joined by single spaces (thereby stripping the ends and
normalizing internal whitespace runs); the alias-replacement table is
applied only to a lower-cased copy that is never read, so `MSFT` passes
through unrewritten even though the table would rewrite the copy. -/
theorem thmC10_preprocessNormalized :
    (∀ q : Str, preprocessQuery q =
      joinSpace ((pySplitWs q).map replWord)) ∧
    preprocessQuery (str "What was MSFT revenue in 2023") =
      str "What was MSFT revenue in 2023" ∧
    applyAliases (pyLower (str "What was MSFT revenue in 2023")) =
      str "what was microsoft revenue in 2023" := by
  refine ⟨?_, by decide, by decide⟩
  intro q
  show joinSpace ((pySplitWs (pyStrip q)).map replWord) = _
  rw [pySplitWs_pyStrip]

/-- Witness for C10's theorem at a concrete padded input. -/
theorem witC10_preprocessNormalized :
    preprocessQuery (str " a  net ") =
      joinSpace ((pySplitWs (str " a  net ")).map replWord) :=
  thmC10_preprocessNormalized.1 _

/-! ## Claim C8 -/

theorem dropWhile_length_le (p : Char → Bool) (s : Str) :
    (s.dropWhile p).length ≤ s.length := by
  induction s with
  | nil => exact le_refl 0
  | cons c cs ih =>
    cases hc : p c with
    | true => simp only [List.dropWhile, hc]; exact le_trans ih (by simp)
    | false => simp [List.dropWhile, hc]

theorem pyStrip_length_le (s : Str) : (pyStrip s).length ≤ s.length := by
  unfold pyStrip
  rw [List.length_reverse]
  refine le_trans (dropWhile_length_le isPySpace _) ?_
  rw [List.length_reverse]
  exact dropWhile_length_le isPySpace s

theorem replWord_length (w : Str) : (replWord w).length = w.length := by
  unfold replWord
  by_cases h1 : pyLower w = str "google"
  · rw [if_pos h1]
    have h2 : w.length = 6 := by
      have h3 := congrArg List.length h1
      simpa [pyLower] using h3
    rw [h2]
    decide
  · rw [if_neg h1]
    by_cases h2 : pyLower w = str "microsoft"
    · rw [if_pos h2]
      have h3 : w.length = 9 := by
        have h4 := congrArg List.length h2
        simpa [pyLower] using h4
      rw [h3]
      decide
    · rw [if_neg h2]
      by_cases h3 : pyLower w = str "nvidia"
      · rw [if_pos h3]
        have h4 : w.length = 6 := by
          have h5 := congrArg List.length h3
          simpa [pyLower] using h5
        rw [h4]
        decide
      · rw [if_neg h3]

theorem joinSpace_map_replWord_length (ws : List Str) :
    (joinSpace (ws.map replWord)).length = (joinSpace ws).length := by
  induction ws with
  | nil => rfl
  | cons w ws ih =>
    cases ws with
    | nil => simp [joinSpace, replWord_length]
    | cons v vs =>
      rw [List.map_cons] at ih
      show (replWord w ++ ' ' :: joinSpace ((v :: vs).map replWord)).length =
        (w ++ ' ' :: joinSpace (v :: vs)).length
      simp only [List.map_cons, List.length_append, List.length_cons, ih,
        replWord_length]

theorem joinSpace_cons_length_le (w : Str) (ws : List Str) :
    (joinSpace (w :: ws)).length ≤ w.length + 1 + (joinSpace ws).length := by
  cases ws with
  | nil => simp [joinSpace]
  | cons v vs => simp [joinSpace]; omega

theorem splitWsGo_join_length :
    ∀ (s cur : Str),
      (joinSpace (splitWsGo cur s)).length ≤ cur.length + s.length := by
  intro s
  induction s with
  | nil =>
    intro cur
    cases cur with
    | nil => simp [splitWsGo, joinSpace]
    | cons a as =>
      rw [show splitWsGo (a :: as) [] = [(a :: as).reverse] from by
        simp [splitWsGo]]
      simp [joinSpace]
  | cons c cs ih =>
    intro cur
    cases hc : isPySpace c with
    | false =>
      rw [show splitWsGo cur (c :: cs) = splitWsGo (c :: cur) cs from by
        simp [splitWsGo, hc]]
      have h := ih (c :: cur)
      simp only [List.length_cons] at h ⊢
      omega
    | true =>
      cases cur with
      | nil =>
        rw [show splitWsGo [] (c :: cs) = splitWsGo [] cs from by
          simp [splitWsGo, hc]]
        have h := ih []
        simp only [List.length_nil, List.length_cons] at h ⊢
        omega
      | cons a as =>
        rw [show splitWsGo (a :: as) (c :: cs) =
            (a :: as).reverse :: splitWsGo [] cs from by
          simp [splitWsGo, hc]]
        have h1 := joinSpace_cons_length_le (a :: as).reverse (splitWsGo [] cs)
        have h2 := ih []
        simp only [List.length_reverse, List.length_nil,
          List.length_cons] at h1 h2 ⊢
        omega

theorem preprocess_length_le (q : Str) :
    (preprocessQuery q).length ≤ q.length := by
  show (joinSpace ((pySplitWs (pyStrip q)).map replWord)).length ≤ q.length
  rw [joinSpace_map_replWord_length]
  refine le_trans ?_ (pyStrip_length_le q)
  have h := splitWsGo_join_length (pyStrip q) []
  simpa using h

set_option maxRecDepth 40000 in
/-- Claim C8, counterexample: validation runs on the preprocessed query, and
preprocessing collapses whitespace; a 501-character input (`"revenue"`
padded with 494 spaces) shrinks to `"revenue"`, passes validation, and the
classifier pipeline is invoked — so an input query longer than 500
characters is not always rejected. -/
theorem cexC8_longInputSlipsThrough :
    longPaddedQuery.length = 501 ∧
    500 < longPaddedQuery.length ∧
    processSingleQuery pipelineMark longPaddedQuery =
      pipelineMark (str "revenue") ∧
    (processSingleQuery pipelineMark longPaddedQuery).confidence ≠ .low := by
  refine ⟨by decide, by decide, by decide, by decide⟩

/-- Claim C8 (amended): validation is applied to the preprocessed
(whitespace-normalized) query before the classifier-bearing pipeline is
entered.  Whenever the preprocessed query has stripped length below 5,
length above 500, or no financial keyword, `process_single_query` returns
the low-confidence invalid-query answer built from the validation message
and the pipeline (hence the classifier) is never invoked; when the
preprocessed query passes the length checks but has no financial keyword,
the message is the specific not-financial-related one; and any raw input
shorter than 5 characters is always rejected with `Query too short` (a raw
input longer than 500 characters may instead slip through, since
preprocessing can shorten it). -/
theorem thmC8_validationGate (pipeline : Str → Answer) (q : Str) :
    ((pyStrip (preprocessQuery q)).length < 5 ∨
        500 < (preprocessQuery q).length ∨
        hasFinancialKeyword (preprocessQuery q) = false →
      (validateQuery (preprocessQuery q)).1 = false ∧
      processSingleQuery pipeline q =
        invalidAnswer q (validateQuery (preprocessQuery q)).2 ∧
      (processSingleQuery pipeline q).confidence = .low) ∧
    (5 ≤ (pyStrip (preprocessQuery q)).length →
      (preprocessQuery q).length ≤ 500 →
      hasFinancialKeyword (preprocessQuery q) = false →
      validateQuery (preprocessQuery q) = (false, notFinancialMsg)) ∧
    (q.length < 5 →
      processSingleQuery pipeline q =
        invalidAnswer q (str "Query too short")) := by
  have key : (validateQuery (preprocessQuery q)).1 = false →
      processSingleQuery pipeline q =
        invalidAnswer q (validateQuery (preprocessQuery q)).2 := by
    intro hv
    show (if (validateQuery (preprocessQuery q)).1 = true then _ else _) = _
    rw [hv]
    simp
  refine ⟨?_, ?_, ?_⟩
  · intro hdis
    have hval : (validateQuery (preprocessQuery q)).1 = false := by
      unfold validateQuery
      rcases hdis with h | h | h
      · rw [if_pos h]
      · by_cases c1 : (pyStrip (preprocessQuery q)).length < 5
        · rw [if_pos c1]
        · rw [if_neg c1, if_pos h]
      · by_cases c1 : (pyStrip (preprocessQuery q)).length < 5
        · rw [if_pos c1]
        · rw [if_neg c1]
          by_cases c2 : 500 < (preprocessQuery q).length
          · rw [if_pos c2]
          · rw [if_neg c2]
            simp [h]
    exact ⟨hval, key hval, by rw [key hval]; rfl⟩
  · intro h1 h2 h3
    unfold validateQuery
    rw [if_neg (by omega), if_neg (by omega), if_pos (by simp [h3])]
  · intro hq
    have hstrip : (pyStrip (preprocessQuery q)).length < 5 :=
      lt_of_le_of_lt
        (le_trans (pyStrip_length_le _) (preprocess_length_le q)) hq
    have hval : validateQuery (preprocessQuery q) =
        (false, str "Query too short") := by
      unfold validateQuery
      rw [if_pos hstrip]
    have hf : (validateQuery (preprocessQuery q)).1 = false := by rw [hval]
    rw [key hf, hval]

/-- Witness for C8's theorem: a well-formed-length query with no financial
keyword gets the specific not-financial-related rejection. -/
theorem witC8_validationGate :
    validateQuery (preprocessQuery (str "What is the weather today")) =
      (false, notFinancialMsg) :=
  (thmC8_validationGate pipelineMark (str "What is the weather today")).2.1
    (by decide) (by decide) (by decide)

end FinQA
